import Mathlib

/-!
Shallow embedding of the NeverMiss date-normalization, range-filter and
calendar-bucketing core, translated from:
  src/src/utils/time_utils.py         (parse_greek_date_piece, parse_greek_date_or_range,
                                       overlaps_range, parse_iso_date, parse_event_dt)
  src/src/web/events/event_gatherer.py (collect_events_from_soup)
  src/src/cli/event_gatherer.py        (collect_events; this variant references an
                                       undefined name `y` in its pill fallback)
  src/src/web/utils/suggestion_utils.py (_bucket_events)

Python `datetime` values in this code always carry a zero time component
(every constructor used is `datetime(y, m, d)` or the date-only branch of
`fromisoformat`), so a datetime is modelled as a year-month-day triple;
Python datetime comparison restricted to such values is lexicographic on
the triple.  Python `date` arithmetic (`timedelta` addition, `weekday`) is
modelled through the proleptic-Gregorian ordinal, exactly CPython's
`date.toordinal` formula, with `weekday d = (toordinal d + 6) % 7`.
-/

namespace NeverMiss

/-- Model of a Python `datetime` at midnight: a year-month-day triple. -/
structure Datetime where
  y : Nat
  m : Nat
  d : Nat
deriving DecidableEq, Repr

/-- Model of `models/events.py` `Event` (a dataclass of optional strings). -/
structure Event where
  title : String
  url : String
  start_date : Option String
  venue : Option String
  city : Option String
  region : Option String
  image : Option String
deriving DecidableEq, Repr

/-- Model of one raw card record produced by `parse_cards` / `JS_EXTRACT`:
`{hidden, url, image, start_iso, title, venue, city, region, pill}`. -/
structure Item where
  hidden : Bool
  url : Option String
  image : Option String
  start_iso : Option String
  title : Option String
  venue : Option String
  city : Option String
  region : Option String
  pill : Option String
deriving DecidableEq, Repr

/-- Python truthiness of an optional string: `None` and `""` are falsy. -/
def strTruthy : Option String → Bool
  | none => false
  | some s => decide (s ≠ "")

/-- Python `o or dflt` for an optional string (falls through on `None` and `""`). -/
def pyOrStr (o : Option String) (dflt : String) : String :=
  match o with
  | none => dflt
  | some s => if s = "" then dflt else s

/-- Python `x or y` on two optionals whose payload is always truthy
(`datetime` objects are always truthy). -/
def optOr (x y : Option Datetime) : Option Datetime :=
  match x with
  | none => y
  | some v => some v

/-- Leap year test, as in CPython `calendar.isleap` / `datetime`. -/
def isLeap (y : Nat) : Bool := y % 4 == 0 && (y % 100 != 0 || y % 400 == 0)

/-- Days in a month, as used by the `datetime(y, m, d)` constructor. -/
def daysInMonth (y m : Nat) : Nat :=
  if m = 2 then (if isLeap y then 29 else 28)
  else if m = 4 ∨ m = 6 ∨ m = 9 ∨ m = 11 then 30
  else 31

/-- Validity of `datetime(y, m, d)`: the constructor raises unless
`MINYEAR <= y <= MAXYEAR`, `1 <= m <= 12` and `1 <= d <= daysInMonth`. -/
def dateValid (y m d : Nat) : Bool :=
  decide (1 ≤ y) && decide (y ≤ 9999) && decide (1 ≤ m) && decide (m ≤ 12) &&
  decide (1 ≤ d) && decide (d ≤ daysInMonth y m)

/-- Model of `datetime(y, m, d)` under a `try`: `some` on success, `none`
when the constructor raises. -/
def mkDatetime (y m d : Nat) : Option Datetime :=
  if dateValid y m d then some ⟨y, m, d⟩ else none

/-- Python datetime strict comparison, lexicographic on (year, month, day). -/
def dtLt (a b : Datetime) : Bool :=
  decide (a.y < b.y ∨ (a.y = b.y ∧ (a.m < b.m ∨ (a.m = b.m ∧ a.d < b.d))))

/-- Python datetime non-strict comparison, lexicographic on (year, month, day). -/
def dtLe (a b : Datetime) : Bool :=
  decide (a.y < b.y ∨ (a.y = b.y ∧ (a.m < b.m ∨ (a.m = b.m ∧ a.d ≤ b.d))))

/-- Python two-argument `max(a, b)`: returns `b` exactly when `a < b`. -/
def dtMax (a b : Datetime) : Datetime := if dtLt a b then b else a

/-- Decimal value of a list of digit characters. -/
def digitsVal (cs : List Char) : Nat :=
  cs.foldl (fun acc c => acc * 10 + (c.toNat - 48)) 0

/-- Left-pad the decimal rendering of `n` with zeros to width `w`,
as Python `f-string` `04d` / `02d` formatting does. -/
def padNat (w n : Nat) : String :=
  let s := toString n
  String.mk (List.replicate (w - s.length) '0') ++ s

/-- The `f-string` date rendering used by both gatherers:
four-digit year, dash, two-digit month, dash, two-digit day. -/
def fmtDate (dt : Datetime) : String :=
  padNat 4 dt.y ++ "-" ++ padNat 2 dt.m ++ "-" ++ padNat 2 dt.d

/-- CPython `date.toordinal`: days before year `y` in the proleptic
Gregorian calendar (days of year 1 .. y-1). -/
def daysBeforeYear (y : Nat) : Int :=
  365 * ((y : Int) - 1) + ((y : Int) - 1) / 4 - ((y : Int) - 1) / 100 + ((y : Int) - 1) / 400

/-- Days before month `m` in year `y` (months 1 .. m-1). -/
def daysBeforeMonth (y m : Nat) : Nat :=
  (List.range (m - 1)).foldl (fun acc i => acc + daysInMonth y (i + 1)) 0

/-- CPython `date.toordinal`: 0001-01-01 is ordinal 1. -/
def toOrdinal (dt : Datetime) : Int :=
  daysBeforeYear dt.y + (daysBeforeMonth dt.y dt.m : Int) + (dt.d : Int)

/-- CPython `date.weekday`: `(toordinal + 6) % 7`, Monday = 0 .. Sunday = 6. -/
def weekdayOf (dt : Datetime) : Int := (toOrdinal dt + 6) % 7

/-!
Hand-compiled recognizers for the three regular expressions of
`time_utils.py`, with Python `re.search` semantics: scan start positions
left to right, and at each position try quantifier lengths in greedy
(longest-first) order with backtracking.
  DATE_NUM  = (\d{1,2})[\/\.-](\d{1,2})[\/\.-](\d{2,4})
  DATE_G_WORD = (\d{1,2})\s+([A-Za-z<greek letters>\.]+)
  ISO       = (\d{4}), dash-or-slash, (\d{2}), dash-or-slash, (\d{2})
-/

/-- Match exactly `n` decimal digits at the head; return their value and the rest. -/
def matchDigits (n : Nat) (cs : List Char) : Option (Nat × List Char) :=
  let pre := cs.take n
  if decide (pre.length = n) && pre.all Char.isDigit then some (digitsVal pre, cs.drop n)
  else none

/-- The separator class `[\/\.-]` of DATE_NUM. -/
def isSep (c : Char) : Bool := c = '/' || c = '.' || c = '-'

/-- Consume one DATE_NUM separator. -/
def trySep (cs : List Char) : Option (List Char) :=
  match cs with
  | c :: rest => if isSep c then some rest else none
  | [] => none

/-- Greedy `\d{2,4}` (the year group): longest first. -/
def matchYear24 (cs : List Char) : Option Nat :=
  match matchDigits 4 cs with
  | some (v, _) => some v
  | none =>
    match matchDigits 3 cs with
    | some (v, _) => some v
    | none =>
      match matchDigits 2 cs with
      | some (v, _) => some v
      | none => none

/-- One month alternative of DATE_NUM: month `\d{n}`, separator, year. -/
def matchNumMonth (n d : Nat) (r1 : List Char) : Option (Nat × Nat × Nat) :=
  match matchDigits n r1 with
  | none => none
  | some (mv, r2) =>
    match trySep r2 with
    | none => none
    | some r3 =>
      match matchYear24 r3 with
      | none => none
      | some yv => some (d, mv, yv)

/-- DATE_NUM after the day group: separator, then month `\d{1,2}` greedy
(two digits first, backtracking to one). -/
def matchNumAfterDay (d : Nat) (cs : List Char) : Option (Nat × Nat × Nat) :=
  match trySep cs with
  | none => none
  | some r1 =>
    match matchNumMonth 2 d r1 with
    | some res => some res
    | none => matchNumMonth 1 d r1

/-- One day alternative of DATE_NUM: day `\d{n}`, then the rest. -/
def matchNumDay (n : Nat) (cs : List Char) : Option (Nat × Nat × Nat) :=
  match matchDigits n cs with
  | none => none
  | some (dv, r1) => matchNumAfterDay dv r1

/-- DATE_NUM anchored at the head: day group `\d{1,2}` greedy. -/
def matchNumHere (cs : List Char) : Option (Nat × Nat × Nat) :=
  match matchNumDay 2 cs with
  | some res => some res
  | none => matchNumDay 1 cs

/-- `DATE_NUM.search`: leftmost match wins. -/
def searchNum : List Char → Option (Nat × Nat × Nat)
  | [] => none
  | c :: rest =>
    match matchNumHere (c :: rest) with
    | some r => some r
    | none => searchNum rest

/-- Python `\s` (the whitespace characters relevant to `str.strip` too). -/
def isSpaceChar (c : Char) : Bool :=
  c = ' ' || c = '\t' || c = '\n' || c = '\r' || c.toNat = 11 || c.toNat = 12

/-- The DATE_G_WORD second-group class: ASCII letters, dot, and the Greek
block `Ά-ώ` (U+0386 .. U+03CE; the extra chars listed in the class all lie
inside that range). -/
def isGWordChar (c : Char) : Bool :=
  (decide ('A' ≤ c) && decide (c ≤ 'Z')) || (decide ('a' ≤ c) && decide (c ≤ 'z')) ||
  c = '.' || (decide (0x386 ≤ c.toNat) && decide (c.toNat ≤ 0x3CE))

/-- DATE_G_WORD after the day group: `\s+` then the month-word group.
The two classes are disjoint, so greedy maximal munch is exact. -/
def matchGWordAfterDay (d : Nat) (cs : List Char) : Option (Nat × List Char) :=
  if (cs.takeWhile isSpaceChar).isEmpty then none
  else
    let w := (cs.dropWhile isSpaceChar).takeWhile isGWordChar
    if w.isEmpty then none else some (d, w)

/-- One day alternative of DATE_G_WORD. -/
def matchGWordDay (n : Nat) (cs : List Char) : Option (Nat × List Char) :=
  match matchDigits n cs with
  | none => none
  | some (dv, r1) => matchGWordAfterDay dv r1

/-- DATE_G_WORD anchored at the head: day group `\d{1,2}` greedy. -/
def matchGWordHere (cs : List Char) : Option (Nat × List Char) :=
  match matchGWordDay 2 cs with
  | some res => some res
  | none => matchGWordDay 1 cs

/-- `DATE_G_WORD.search`: leftmost match wins. -/
def searchGWord : List Char → Option (Nat × List Char)
  | [] => none
  | c :: rest =>
    match matchGWordHere (c :: rest) with
    | some r => some r
    | none => searchGWord rest

/-- The `_strip_accents` + `.lower()` composite of `time_utils.py`, per
character, restricted to the characters DATE_G_WORD can capture (ASCII
letters, dot, Greek block): NFD-decompose, drop combining marks, lowercase.
Accented Greek letters decompose to their base letter; plain capitals
(ASCII and Greek) shift to lowercase; everything else is fixed. -/
def stripAccentLower (c : Char) : Char :=
  if c = 'Ά' then 'α' else if c = 'Έ' then 'ε' else if c = 'Ή' then 'η'
  else if c = 'Ί' then 'ι' else if c = 'Ό' then 'ο' else if c = 'Ύ' then 'υ'
  else if c = 'Ώ' then 'ω' else if c = 'ΐ' then 'ι' else if c = 'ά' then 'α'
  else if c = 'έ' then 'ε' else if c = 'ή' then 'η' else if c = 'ί' then 'ι'
  else if c = 'ΰ' then 'υ' else if c = 'ϊ' then 'ι' else if c = 'ϋ' then 'υ'
  else if c = 'ό' then 'ο' else if c = 'ύ' then 'υ' else if c = 'ώ' then 'ω'
  else if c = 'Ϊ' then 'ι' else if c = 'Ϋ' then 'υ'
  else if decide ('A' ≤ c) && decide (c ≤ 'Z') then Char.ofNat (c.toNat + 32)
  else if decide (0x391 ≤ c.toNat) && decide (c.toNat ≤ 0x3A9) && decide (c.toNat ≠ 0x3A2)
    then Char.ofNat (c.toNat + 0x20)
  else c

/-- The `G_MONTHS_FULL` table (genitive and nominative spellings). -/
def G_MONTHS_FULL : List (String × Nat) :=
  [("ιανουαριου", 1), ("ιανουαριος", 1), ("φεβρουαριου", 2), ("φεβρουαριος", 2),
   ("μαρτιου", 3), ("μαρτιος", 3), ("απριλιου", 4), ("απριλιος", 4),
   ("μαιου", 5), ("μαϊου", 5), ("μαιος", 5), ("μαϊος", 5),
   ("ιουνιου", 6), ("ιουνιος", 6), ("ιουλιου", 7), ("ιουλιος", 7),
   ("αυγουστου", 8), ("αυγουστος", 8), ("σεπτεμβριου", 9), ("σεπτεμβριος", 9),
   ("οκτωβριου", 10), ("οκτωβριος", 10), ("νοεμβριου", 11), ("νοεμβριος", 11),
   ("δεκεμβριου", 12), ("δεκεμβριος", 12)]

/-- The `G_MONTHS_ABBR` table. -/
def G_MONTHS_ABBR : List (String × Nat) :=
  [("ιαν", 1), ("φεβ", 2), ("μαρ", 3), ("απρ", 4), ("μαϊ", 5), ("μαι", 5), ("ιουν", 6),
   ("ιουλ", 7), ("αυγ", 8), ("σεπ", 9), ("οκτ", 10), ("νοε", 11), ("δεκ", 12)]

/-- `parse_greek_date_piece(txt, fallback_year)`: DATE_NUM first (two-digit
years shifted to 2000+), then DATE_G_WORD with the accent-stripped,
dot-free month word looked up in the abbreviation table `or` the full table;
an invalid calendar date is caught and becomes `None`. -/
def parse_greek_date_piece (txt : String) (fallback_year : Nat) : Option Datetime :=
  if txt = "" then none
  else
    match searchNum txt.toList with
    | some (d, mm, yy) =>
      let yy2 := if yy < 100 then yy + 2000 else yy
      mkDatetime yy2 mm d
    | none =>
      match searchGWord txt.toList with
      | none => none
      | some (d, w) =>
        let mon_raw := String.mk ((w.map stripAccentLower).filter (fun c => decide (c ≠ '.')))
        match (G_MONTHS_ABBR.lookup mon_raw).orElse (fun _ => G_MONTHS_FULL.lookup mon_raw) with
        | none => none
        | some mm => mkDatetime fallback_year mm d

/-- Python `txt.split("-")`: split on every dash, keeping empty pieces;
never returns the empty list. -/
def splitDash : List Char → List (List Char)
  | [] => [[]]
  | c :: rest =>
    if c = '-' then [] :: splitDash rest
    else
      match splitDash rest with
      | [] => [[c]]
      | p :: ps => (c :: p) :: ps

/-- Python `str.strip()`: drop leading and trailing whitespace. -/
def pyStripChars (cs : List Char) : List Char :=
  ((cs.dropWhile isSpaceChar).reverse.dropWhile isSpaceChar).reverse

/-- Python `str.strip()` on a `String`. -/
def pyStrip (s : String) : String := String.mk (pyStripChars s.toList)

/-- The piece list `[p.strip() for p in txt.split("-")]`. -/
def splitParts (txt : String) : List String :=
  (splitDash txt.toList).map (fun p => String.mk (pyStripChars p))

/-- `parse_greek_date_or_range(txt, fallback_year)`: empty text is absent;
one piece parses to a degenerate span `(d, d)`; otherwise the first and
last pieces are parsed and the result is `(start, end or start)`. -/
def parse_greek_date_or_range (txt : String) (fallback_year : Nat) :
    Option Datetime × Option Datetime :=
  if txt = "" then (none, none)
  else
    match splitParts txt with
    | [] => (none, none)
    | [p] =>
      let d := parse_greek_date_piece p fallback_year
      (d, d)
    | p :: rest =>
      let s := parse_greek_date_piece p fallback_year
      let e := parse_greek_date_piece (rest.getLastD p) fallback_year
      (s, optOr e s)

/-- The ISO pattern anchored at the head: `\d{4}`, dash or slash, `\d{2}`, dash or slash, `\d{2}`. -/
def matchIsoHere (cs : List Char) : Option (Nat × Nat × Nat) :=
  match matchDigits 4 cs with
  | none => none
  | some (yv, r1) =>
    match r1 with
    | [] => none
    | c1 :: r2 =>
      if c1 = '-' || c1 = '/' then
        match matchDigits 2 r2 with
        | none => none
        | some (mv, r3) =>
          match r3 with
          | [] => none
          | c2 :: r4 =>
            if c2 = '-' || c2 = '/' then
              match matchDigits 2 r4 with
              | none => none
              | some (dv, _) => some (yv, mv, dv)
            else none
      else none

/-- Leftmost search for the ISO pattern. -/
def searchIso : List Char → Option (Nat × Nat × Nat)
  | [] => none
  | c :: rest =>
    match matchIsoHere (c :: rest) with
    | some r => some r
    | none => searchIso rest

/-- `parse_iso_date(s)`: search for a year-month-day pattern (4-2-2 digits,
dash or slash separated) anywhere in `s`;
an invalid calendar date is caught and becomes `None`. -/
def parse_iso_date (s : String) : Option Datetime :=
  match searchIso s.toList with
  | some (yv, mv, dv) => mkDatetime yv mv dv
  | none => none

/-- `overlaps_range(start, end, a, b)`: false for the absent span, else
`s = start or end`, `e = end or start`, `not (e < a or s > b)`.  In the
non-absent branch `optOr` always yields `some`, so the `getD` default is
never read. -/
def overlaps_range (startDt endDt : Option Datetime) (a b : Datetime) : Bool :=
  match startDt, endDt with
  | none, none => false
  | _, _ =>
    let s := (optOr startDt endDt).getD ⟨0, 0, 0⟩
    let e := (optOr endDt startDt).getD ⟨0, 0, 0⟩
    !(dtLt e a || dtLt b s)

/-- The date-only branch of `datetime.fromisoformat` as reached from
`parse_event_dt` (the string has length 10 with dashes at indices 4 and 7):
succeeds exactly on `YYYY-MM-DD` with all-digit fields forming a valid
calendar date. -/
def fromIsoDateOnly (s : String) : Option Datetime :=
  match s.toList with
  | [a1, a2, a3, a4, h1, b1, b2, h2, c1, c2] =>
    if ([a1, a2, a3, a4, b1, b2, c1, c2].all Char.isDigit) && h1 = '-' && h2 = '-' then
      mkDatetime (digitsVal [a1, a2, a3, a4]) (digitsVal [b1, b2]) (digitsVal [c1, c2])
    else none
  | _ => none

/-- `parse_event_dt(ev)` from `time_utils.py`, on the date-only branch
(`len(s) == 10 and s[4] == "-" and s[7] == "-"`); the timezone attached
there never changes the calendar date.  The other branch (datetime strings
with a time component, `Z` suffixes, offsets) entails ISO-datetime parsing
and an Athens timezone conversion against the zone database and is not
modelled: every `Event.start_date` this repository produces is either
`None` or the gatherers' plain `YYYY-MM-DD` rendering, so that branch never
fires on the repository's own data; it is mapped to `none` here. -/
def parse_event_dt (ev : Event) : Option Datetime :=
  match ev.start_date with
  | none => none
  | some raw =>
    if raw = "" then none
    else
      let s := pyStrip raw
      if decide (s.length = 10) && (s.toList.getD 4 ' ') = '-' && (s.toList.getD 7 ' ') = '-'
      then fromIsoDateOnly s
      else none

/-- The span-normalization step shared by both gatherers: prefer
`parse_iso_date(start_iso)` when `start_iso` is truthy (giving a degenerate
span), else parse the pill text (`it.get("pill") or ""`). -/
def cardSpan (it : Item) (fallback_year : Nat) : Option Datetime × Option Datetime :=
  let start_dt := if strTruthy it.start_iso then parse_iso_date (it.start_iso.getD "") else none
  match start_dt with
  | some d => (some d, some d)
  | none => parse_greek_date_or_range (pyOrStr it.pill "") fallback_year

/-- The representative-date step of both gatherers:
`chosen = max(start_dt or end_dt, range_a); if chosen > range_b: chosen = range_a`,
rendered date-only; `None` when the span is absent (unreachable after the
overlap filter, but present in the code). -/
def startIsoOut (startDt endDt : Option Datetime) (range_a range_b : Datetime) :
    Option String :=
  match optOr startDt endDt with
  | some v =>
    let chosen := dtMax v range_a
    let chosen2 := if dtLt range_b chosen then range_a else chosen
    some (fmtDate chosen2)
  | none => none

/-- `collect_events_from_soup` from `src/src/web/events/event_gatherer.py`
(its per-item filtering and normalization; `fallback_year = range_a.year`):
drop hidden cards and cards with a falsy url, default the title, normalize
the span, apply the region filter, apply the overlap filter, and emit the
event with the representative date. -/
def collect_events_from_soup (items : List Item) (range_a range_b : Datetime)
    (location_only : Bool) (location_title : String) : List Event :=
  match items with
  | [] => []
  | it :: rest =>
    let tail := collect_events_from_soup rest range_a range_b location_only location_title
    if it.hidden then tail
    else if !(strTruthy it.url) then tail
    else
      let sp := cardSpan it range_a.y
      if location_only && !(pyStrip (pyOrStr it.region "") = location_title) then tail
      else if !(overlaps_range sp.1 sp.2 range_a range_b) then tail
      else
        { title := pyOrStr it.title "(untitled)"
          url := it.url.getD ""
          start_date := startIsoOut sp.1 sp.2 range_a range_b
          venue := it.venue
          city := it.city
          region := it.region
          image := it.image } :: tail

/-- `collect_events` from `src/src/cli/event_gatherer.py`.  Its pill
fallback reads `fallback_year=y` where no name `y` is in scope anywhere in
the module, so reaching that branch raises `NameError` and aborts the whole
call; the fallible call is modelled in `Except`. -/
def collect_events_cli (items : List Item) (range_a range_b : Datetime)
    (location_only : Bool) (location_title : String) : Except String (List Event) :=
  match items with
  | [] => Except.ok []
  | it :: rest =>
    let step : Except String (Option Event) :=
      if it.hidden then Except.ok none
      else if !(strTruthy it.url) then Except.ok none
      else
        let start_dt := if strTruthy it.start_iso then parse_iso_date (it.start_iso.getD "")
                        else none
        match start_dt with
        | none => Except.error "NameError: name y is not defined"
        | some d =>
          if location_only && !(pyStrip (pyOrStr it.region "") = location_title) then
            Except.ok none
          else if !(overlaps_range (some d) (some d) range_a range_b) then Except.ok none
          else
            Except.ok (some
              { title := pyOrStr it.title "(untitled)"
                url := it.url.getD ""
                start_date := startIsoOut (some d) (some d) range_a range_b
                venue := it.venue
                city := it.city
                region := it.region
                image := it.image })
    match step with
    | Except.error msg => Except.error msg
    | Except.ok o =>
      match collect_events_cli rest range_a range_b location_only location_title with
      | Except.error msg => Except.error msg
      | Except.ok tail => Except.ok (o.elim tail (fun e => e :: tail))

/-!
The calendar bucketer `_bucket_events` of
`src/src/web/utils/suggestion_utils.py`.  The date bounds it builds
(`start_of_week`, `upcoming_weekend_bounds`, `next_monday`, `next_sunday`,
`+ timedelta(...)`) and all its date comparisons are carried out on
ordinals, which is exactly how CPython `date` implements them.  It is
stated over an arbitrary `parse` argument standing for `parse_event_dt`,
so every theorem about it covers the real parser whatever it returns;
`_bucket_events` instantiates it with the modelled `parse_event_dt`.
-/

/-- The per-event classification of the `_bucket_events` loop: the first
matching bucket (0 = this_week, 1 = this_weekend, 2 = next_week,
3 = coming_soon), `none` when the date is unparsable or no window matches.
The `this_week` test is guarded by `today.weekday() != 4`. -/
def classify (parse : Event → Option Datetime) (today : Datetime) (ev : Event) :
    Option Nat :=
  match parse ev with
  | none => none
  | some dt =>
    let d := toOrdinal dt
    let t := toOrdinal today
    let wd := (t + 6) % 7
    let mon_this := t - wd
    let thu_this := mon_this + 3
    let fri_this := mon_this + 4
    let sun_this := mon_this + 6
    let mon_next := mon_this + 7
    let sun_next := mon_next + 6
    let mon_two_weeks := mon_next + 7
    let thirty_days_out := t + 30
    if (!(decide (wd = 4))) && decide (max t mon_this ≤ d ∧ d ≤ thu_this) then some 0
    else if decide (fri_this ≤ d ∧ d ≤ sun_this) then some 1
    else if decide (mon_next ≤ d ∧ d ≤ sun_next) then some 2
    else if decide (mon_two_weeks ≤ d ∧ d ≤ thirty_days_out) then some 3
    else none

/-- The accumulation loop of `_bucket_events`, in list order. -/
def bucketLoop (parse : Event → Option Datetime) (today : Datetime) :
    List Event → List Event × List Event × List Event × List Event
  | [] => ([], [], [], [])
  | ev :: rest =>
    let acc := bucketLoop parse today rest
    match classify parse today ev with
    | some 0 => (ev :: acc.1, acc.2.1, acc.2.2.1, acc.2.2.2)
    | some 1 => (acc.1, ev :: acc.2.1, acc.2.2.1, acc.2.2.2)
    | some 2 => (acc.1, acc.2.1, ev :: acc.2.2.1, acc.2.2.2)
    | some 3 => (acc.1, acc.2.1, acc.2.2.1, ev :: acc.2.2.2)
    | _ => acc

/-- The sort key `key_dt`: the parsed datetime, or `datetime.max` (whose
date is 9999-12-31) for an unparsable one; buckets are sorted by it
ascending with a stable sort, as Python `list.sort` is. -/
def key_dt (parse : Event → Option Datetime) (e : Event) : Int :=
  toOrdinal ((parse e).getD ⟨9999, 12, 31⟩)

/-- Stable ascending sort of one bucket by `key_dt`.  Python `list.sort` is
a stable sort, and a stable sort by a total key is uniquely determined by
its output specification, so the (stable) insertion sort models it exactly. -/
def sortBucket (parse : Event → Option Datetime) (l : List Event) : List Event :=
  l.insertionSort (fun e1 e2 => key_dt parse e1 ≤ key_dt parse e2)

/-- `_bucket_events`, parametric in the event-date parser: the returned
dict literal always carries the four keys in this order. -/
def _bucket_events_with (parse : Event → Option Datetime) (events : List Event)
    (today : Datetime) : List (String × List Event) :=
  let acc := bucketLoop parse today events
  [("this_week", sortBucket parse acc.1),
   ("this_weekend", sortBucket parse acc.2.1),
   ("next_week", sortBucket parse acc.2.2.1),
   ("coming_soon", sortBucket parse acc.2.2.2)]

/-- `_bucket_events(events, today)` with the repository's `parse_event_dt`. -/
def _bucket_events (events : List Event) (today : Datetime) :
    List (String × List Event) :=
  _bucket_events_with parse_event_dt events today

/-- The ten decimal digit characters (the characters `\d` matches here). -/
def digitChars : List Char := ['0', '1', '2', '3', '4', '5', '6', '7', '8', '9']

/-- Bucket selector for stating one lemma over the four components. -/
def bucketSel : Nat → List Event × List Event × List Event × List Event → List Event
  | 0, acc => acc.1
  | 1, acc => acc.2.1
  | 2, acc => acc.2.2.1
  | _, acc => acc.2.2.2

/-!
Helper lemmas.
-/

lemma not_lt_or_lt (e a s b : Datetime) :
    (!(dtLt e a || dtLt b s)) = true ↔ dtLe s b = true ∧ dtLe a e = true := by
  simp only [dtLt, dtLe, Bool.not_eq_true', Bool.or_eq_false_iff, decide_eq_false_iff_not,
    decide_eq_true_eq]
  omega

lemma mem_sortBucket {parse : Event → Option Datetime} {l : List Event} {ev : Event} :
    ev ∈ sortBucket parse l ↔ ev ∈ l :=
  (List.perm_insertionSort _ l).mem_iff

lemma mem_digitChars_props {c : Char} (h : c ∈ digitChars) :
    isSep c = false ∧ isSpaceChar c = false ∧ c.isDigit = true ∧ c ≠ '-' := by
  fin_cases h <;> refine ⟨rfl, rfl, rfl, by decide⟩

lemma trySep_digits {cs : List Char} (h : ∀ c ∈ cs, c ∈ digitChars) :
    trySep cs = none := by
  cases cs with
  | nil => rfl
  | cons a l => simp [trySep, (mem_digitChars_props (h a (by simp))).1]

lemma matchDigits_rest {n : Nat} {cs : List Char} {dv : Nat} {r1 : List Char}
    (h : matchDigits n cs = some (dv, r1)) : r1 = cs.drop n := by
  simp only [matchDigits] at h
  split at h
  · simp only [Option.some.injEq, Prod.mk.injEq] at h
    exact h.2.symm
  · cases h

lemma matchNumAfterDay_digits {d : Nat} {cs : List Char} (h : ∀ c ∈ cs, c ∈ digitChars) :
    matchNumAfterDay d cs = none := by
  unfold matchNumAfterDay
  rw [trySep_digits h]

lemma matchNumDay_digits {n : Nat} {cs : List Char} (h : ∀ c ∈ cs, c ∈ digitChars) :
    matchNumDay n cs = none := by
  unfold matchNumDay
  rcases hm : matchDigits n cs with _ | ⟨dv, r1⟩
  · rfl
  · have hr : r1 = cs.drop n := matchDigits_rest hm
    subst hr
    exact matchNumAfterDay_digits (fun c hc => h c (List.drop_subset _ _ hc))

lemma matchNumHere_digits {cs : List Char} (h : ∀ c ∈ cs, c ∈ digitChars) :
    matchNumHere cs = none := by
  unfold matchNumHere
  rw [matchNumDay_digits h, matchNumDay_digits h]

lemma searchNum_digits {cs : List Char} (h : ∀ c ∈ cs, c ∈ digitChars) :
    searchNum cs = none := by
  induction cs with
  | nil => rfl
  | cons a l ih =>
    unfold searchNum
    rw [matchNumHere_digits h]
    exact ih (fun c hc => h c (by simp [hc]))

lemma matchGWordAfterDay_digits {d : Nat} {cs : List Char} (h : ∀ c ∈ cs, c ∈ digitChars) :
    matchGWordAfterDay d cs = none := by
  cases cs with
  | nil => rfl
  | cons a l =>
    simp [matchGWordAfterDay, List.takeWhile_cons, (mem_digitChars_props (h a (by simp))).2.1]

lemma matchGWordDay_digits {n : Nat} {cs : List Char} (h : ∀ c ∈ cs, c ∈ digitChars) :
    matchGWordDay n cs = none := by
  unfold matchGWordDay
  rcases hm : matchDigits n cs with _ | ⟨dv, r1⟩
  · rfl
  · have hr : r1 = cs.drop n := matchDigits_rest hm
    subst hr
    exact matchGWordAfterDay_digits (fun c hc => h c (List.drop_subset _ _ hc))

lemma matchGWordHere_digits {cs : List Char} (h : ∀ c ∈ cs, c ∈ digitChars) :
    matchGWordHere cs = none := by
  unfold matchGWordHere
  rw [matchGWordDay_digits h, matchGWordDay_digits h]

lemma searchGWord_digits {cs : List Char} (h : ∀ c ∈ cs, c ∈ digitChars) :
    searchGWord cs = none := by
  induction cs with
  | nil => rfl
  | cons a l ih =>
    unfold searchGWord
    rw [matchGWordHere_digits h]
    exact ih (fun c hc => h c (by simp [hc]))

lemma parse_piece_digits {cs : List Char} (h : ∀ c ∈ cs, c ∈ digitChars) (fy : Nat) :
    parse_greek_date_piece (String.mk cs) fy = none := by
  unfold parse_greek_date_piece
  by_cases h0 : String.mk cs = ""
  · rw [if_pos h0]
  · rw [if_neg h0]
    have ht : (String.mk cs).toList = cs := rfl
    rw [ht, searchNum_digits h, searchGWord_digits h]

lemma splitDash_no_dash {cs : List Char} (h : ∀ c ∈ cs, c ≠ '-') :
    splitDash cs = [cs] := by
  induction cs with
  | nil => rfl
  | cons a l ih =>
    have ha : ¬(a = '-') := h a (by simp)
    have ihl := ih (fun c hc => h c (by simp [hc]))
    simp [splitDash, ha, ihl]

lemma splitDash_append {cs : List Char} (rest : List Char) (h : ∀ c ∈ cs, c ≠ '-') :
    splitDash (cs ++ '-' :: rest) = cs :: splitDash rest := by
  induction cs with
  | nil => simp [splitDash]
  | cons a l ih =>
    have ha : ¬(a = '-') := h a (by simp)
    have ihl := ih (fun c hc => h c (by simp [hc]))
    simp [splitDash, ha, ihl]

lemma dropWhile_all_false {p : Char → Bool} {cs : List Char}
    (h : ∀ c ∈ cs, p c = false) : cs.dropWhile p = cs := by
  cases cs with
  | nil => rfl
  | cons a l => simp [List.dropWhile_cons, h a (by simp)]

lemma pyStripChars_digits {cs : List Char} (h : ∀ c ∈ cs, c ∈ digitChars) :
    pyStripChars cs = cs := by
  have h1 : ∀ c ∈ cs, isSpaceChar c = false :=
    fun c hc => (mem_digitChars_props (h c hc)).2.1
  unfold pyStripChars
  rw [dropWhile_all_false h1,
    dropWhile_all_false (fun c hc => h1 c (List.mem_reverse.mp hc)),
    List.reverse_reverse]

lemma mem_bucketLoop_forward {parse : Event → Option Datetime} {today : Datetime}
    {ev : Event} (i : Nat) (hi : i < 4) :
    ∀ evs : List Event, ev ∈ bucketSel i (bucketLoop parse today evs) →
      ev ∈ evs ∧ classify parse today ev = some i := by
  intro evs
  induction evs with
  | nil =>
    rcases i with _ | _ | _ | _ | n <;> simp [bucketLoop, bucketSel]
  | cons a l ih =>
    intro hmem
    rcases hc : classify parse today a with _ | m
    · simp only [bucketLoop, hc] at hmem
      obtain ⟨h1, h2⟩ := ih hmem
      exact ⟨List.mem_cons_of_mem a h1, h2⟩
    · rcases m with _ | _ | _ | _ | m <;>
        rcases i with _ | _ | _ | _ | n <;>
        (try simp only [bucketLoop, hc, bucketSel] at hmem ⊢) <;>
        first
          | omega
          | (rcases List.mem_cons.mp hmem with rfl | hmm
             · exact ⟨List.mem_cons_self _ _, hc⟩
             · obtain ⟨h1, h2⟩ := ih hmm
               exact ⟨List.mem_cons_of_mem a h1, h2⟩)
          | (obtain ⟨h1, h2⟩ := ih hmem
             exact ⟨List.mem_cons_of_mem a h1, h2⟩)

lemma classify_ne_some_zero {parse : Event → Option Datetime} {today : Datetime}
    (h : (toOrdinal today + 6) % 7 = 4) (ev : Event) :
    classify parse today ev ≠ some 0 := by
  unfold classify
  rcases parse ev with _ | dt
  · simp
  · simp only [h]
    split
    · rename_i hcond
      simp at hcond
    · split
      · simp
      · split <;> simp

lemma bucketLoop_fst_nil {parse : Event → Option Datetime} {today : Datetime}
    (h : (toOrdinal today + 6) % 7 = 4) (evs : List Event) :
    (bucketLoop parse today evs).1 = [] := by
  rw [List.eq_nil_iff_forall_not_mem]
  intro ev hmem
  have := (mem_bucketLoop_forward 0 (by omega) evs hmem).2
  exact classify_ne_some_zero h ev this

lemma lookup_this_week_empty {parse : Event → Option Datetime} {events : List Event}
    {today : Datetime} (h : (toOrdinal today + 6) % 7 = 4) :
    (_bucket_events_with parse events today).lookup "this_week" = some [] := by
  simp [_bucket_events_with, List.lookup, bucketLoop_fst_nil h events, sortBucket]

/-!
Claim theorems.
-/

/-- C1: for every event-date parser (covering the repository's
`parse_event_dt`, hence `_bucket_events`), every event list and every
`today` whose weekday is Friday (`weekday() == 4`), the bucketing places no
event in `this_week`: that sequence of the result is empty, regardless of
the events' dates. -/
theorem friday_this_week_empty (parse : Event → Option Datetime)
    (events : List Event) (today : Datetime) (h : weekdayOf today = 4) :
    (_bucket_events_with parse events today).lookup "this_week" = some [] :=
  lookup_this_week_empty h

/-- Witness: 2025-10-17 is a Friday, and a run of `_bucket_events` on that
day yields an empty `this_week` even for an in-week event. -/
theorem friday_this_week_empty_witness :
    (_bucket_events [⟨"E", "https://e", some "2025-10-18", none, none, none, none⟩]
        ⟨2025, 10, 17⟩).lookup "this_week" = some [] :=
  friday_this_week_empty parse_event_dt
    [⟨"E", "https://e", some "2025-10-18", none, none, none, none⟩]
    ⟨2025, 10, 17⟩ (by decide)

/-- C2 (code-bug evidence): the CLI `collect_events` raises `NameError`
instead of silently excluding a card whose date fallback is exercised: its
pill branch passes `fallback_year=y` with `y` undefined in the module, so a
card with no ISO date (here: pill text only) aborts the whole call. -/
theorem collect_events_cli_name_error :
    collect_events_cli
      [⟨false, some "https://x", none, none, some "T", none, none, none,
        some "16/10/2025"⟩]
      ⟨2025, 10, 1⟩ ⟨2025, 10, 31⟩ false "Αττική" =
    Except.error "NameError: name y is not defined" := rfl

/-- C3: `overlaps_range` is false on the absent span, and for a span with
at least one non-null side it is true exactly when
`(start or end) <= b` and `(end or start) >= a`, inclusively. -/
theorem overlaps_range_spec :
    (∀ (startDt endDt : Option Datetime) (a b : Datetime),
        startDt ≠ none ∨ endDt ≠ none →
        (overlaps_range startDt endDt a b = true ↔
          ∃ s e, optOr startDt endDt = some s ∧ optOr endDt startDt = some e ∧
            dtLe s b = true ∧ dtLe a e = true)) ∧
    (∀ a b : Datetime, overlaps_range none none a b = false) := by
  constructor
  · intro sd ed a b hne
    match sd, ed with
    | none, none => simp at hne
    | some s0, none =>
      rw [show overlaps_range (some s0) none a b = !(dtLt s0 a || dtLt b s0) from rfl,
        not_lt_or_lt]
      constructor
      · rintro ⟨hb, ha⟩
        exact ⟨s0, s0, rfl, rfl, hb, ha⟩
      · rintro ⟨s, e, hs, he, hb, ha⟩
        cases hs; cases he
        exact ⟨hb, ha⟩
    | none, some e0 =>
      rw [show overlaps_range none (some e0) a b = !(dtLt e0 a || dtLt b e0) from rfl,
        not_lt_or_lt]
      constructor
      · rintro ⟨hb, ha⟩
        exact ⟨e0, e0, rfl, rfl, hb, ha⟩
      · rintro ⟨s, e, hs, he, hb, ha⟩
        cases hs; cases he
        exact ⟨hb, ha⟩
    | some s0, some e0 =>
      rw [show overlaps_range (some s0) (some e0) a b = !(dtLt e0 a || dtLt b s0) from
        rfl, not_lt_or_lt]
      constructor
      · rintro ⟨hb, ha⟩
        exact ⟨s0, e0, rfl, rfl, hb, ha⟩
      · rintro ⟨s, e, hs, he, hb, ha⟩
        cases hs; cases he
        exact ⟨hb, ha⟩
  · intro a b
    rfl

/-- Witness: a span starting before the window and ending inside it
overlaps the window. -/
theorem overlaps_range_spec_witness :
    overlaps_range (some ⟨2025, 10, 14⟩) (some ⟨2025, 10, 20⟩)
      ⟨2025, 10, 16⟩ ⟨2025, 10, 18⟩ = true :=
  (overlaps_range_spec.1 (some ⟨2025, 10, 14⟩) (some ⟨2025, 10, 20⟩)
      ⟨2025, 10, 16⟩ ⟨2025, 10, 18⟩ (Or.inl (by simp))).mpr
    ⟨⟨2025, 10, 14⟩, ⟨2025, 10, 20⟩, rfl, rfl, by decide, by decide⟩

/-- C7 counterexample: on Friday 2025-10-17, an event dated 2025-10-17 is
not placed in no bucket — it lands in `this_weekend`, because 2025-10-17 is
the Friday of the weekend window Fri 2025-10-17 .. Sun 2025-10-19. -/
theorem friday_event_in_weekend_cex :
    (_bucket_events [⟨"E", "https://e", some "2025-10-17", none, none, none, none⟩]
        ⟨2025, 10, 17⟩).lookup "this_weekend" =
      some [⟨"E", "https://e", some "2025-10-17", none, none, none, none⟩] := by
  decide

/-- C7 (amended): for `today = 2025-10-17` (a Friday), an event whose
representative date is 2025-10-17 does not enter `this_week` (suppressed),
but it does not fall through to no bucket: it is placed in `this_weekend`,
and the other buckets stay empty. -/
theorem friday_event_buckets :
    _bucket_events [⟨"E", "https://e", some "2025-10-17", none, none, none, none⟩]
        ⟨2025, 10, 17⟩ =
      [("this_week", []),
       ("this_weekend", [⟨"E", "https://e", some "2025-10-17", none, none, none, none⟩]),
       ("next_week", []), ("coming_soon", [])] := by
  decide

/-- C9 counterexample: the hyphen-separated numeric date is split on `-`
before the numeric pattern can see it, so `parse_greek_date_or_range`
returns the absent span instead of the claimed single-day span. -/
theorem hyphen_dmy_cex :
    parse_greek_date_or_range "16-10-2025" 2025 = (none, none) := rfl

/-- C9 (amended): for every hyphen-separated `D-M-Y` digit text and every
fallback year, `parse_greek_date_or_range` returns the absent span (the
split on `-` leaves only bare digit pieces, which match neither date
pattern); the slash- and dot-separated forms of the same date do parse to
the single-day span. -/
theorem hyphen_dmy_amended :
    (∀ (ds ms ys : List Char) (fy : Nat),
        (∀ c ∈ ds, c ∈ digitChars) → (∀ c ∈ ms, c ∈ digitChars) →
        (∀ c ∈ ys, c ∈ digitChars) →
        parse_greek_date_or_range (String.mk (ds ++ '-' :: (ms ++ '-' :: ys))) fy =
          (none, none)) ∧
    (∀ fy : Nat,
        parse_greek_date_or_range "16/10/2025" fy =
          (some ⟨2025, 10, 16⟩, some ⟨2025, 10, 16⟩) ∧
        parse_greek_date_or_range "16.10.2025" fy =
          (some ⟨2025, 10, 16⟩, some ⟨2025, 10, 16⟩)) := by
  constructor
  · intro ds ms ys fy hd hm hy
    have hd' : ∀ c ∈ ds, c ≠ '-' := fun c hc => (mem_digitChars_props (hd c hc)).2.2.2
    have hm' : ∀ c ∈ ms, c ≠ '-' := fun c hc => (mem_digitChars_props (hm c hc)).2.2.2
    have hy' : ∀ c ∈ ys, c ≠ '-' := fun c hc => (mem_digitChars_props (hy c hc)).2.2.2
    have hne : String.mk (ds ++ '-' :: (ms ++ '-' :: ys)) ≠ "" := by
      intro hcontra
      have h2 : ds ++ '-' :: (ms ++ '-' :: ys) = ([] : List Char) :=
        congrArg String.toList hcontra
      simp at h2
    have hsp : splitParts (String.mk (ds ++ '-' :: (ms ++ '-' :: ys))) =
        [String.mk ds, String.mk ms, String.mk ys] := by
      unfold splitParts
      show (splitDash (ds ++ '-' :: (ms ++ '-' :: ys))).map _ = _
      rw [splitDash_append _ hd', splitDash_append _ hm', splitDash_no_dash hy']
      simp [pyStripChars_digits hd, pyStripChars_digits hm, pyStripChars_digits hy]
    unfold parse_greek_date_or_range
    rw [if_neg hne, hsp]
    simp [parse_piece_digits hd fy, parse_piece_digits hy fy, optOr]
  · intro fy
    exact ⟨rfl, rfl⟩

/-- Witness: the digit pieces of `16-10-2025` satisfy the hypotheses, and
the parse returns the absent span for an arbitrary fallback year. -/
theorem hyphen_dmy_amended_witness :
    parse_greek_date_or_range
      (String.mk ['1', '6', '-', '1', '0', '-', '2', '0', '2', '5']) 777 =
      (none, none) :=
  hyphen_dmy_amended.1 ['1', '6'] ['1', '0'] ['2', '0', '2', '5'] 777
    (by decide) (by decide) (by decide)

/-- C10: for every event-date parser, every event list and every `today`
(Fridays included), the mapping `_bucket_events` returns carries exactly
the four keys in order, and Friday suppression is observable as the
`this_week` key being present and mapped to the empty list, never absent. -/
theorem bucket_keys_and_friday_convention (parse : Event → Option Datetime)
    (events : List Event) (today : Datetime) :
    (_bucket_events_with parse events today).map Prod.fst =
      ["this_week", "this_weekend", "next_week", "coming_soon"] ∧
    (weekdayOf today = 4 →
      (_bucket_events_with parse events today).lookup "this_week" = some []) :=
  ⟨rfl, fun h => lookup_this_week_empty h⟩

/-- Witness: on Friday 2025-10-17 the four keys are all present and
`this_week` is present-but-empty. -/
theorem bucket_keys_and_friday_convention_witness :
    (_bucket_events [] ⟨2025, 10, 17⟩).map Prod.fst =
      ["this_week", "this_weekend", "next_week", "coming_soon"] ∧
    (_bucket_events [] ⟨2025, 10, 17⟩).lookup "this_week" = some [] :=
  ⟨(bucket_keys_and_friday_convention parse_event_dt [] ⟨2025, 10, 17⟩).1,
   (bucket_keys_and_friday_convention parse_event_dt [] ⟨2025, 10, 17⟩).2 (by decide)⟩

lemma length_filter_four {α : Type} (p : α → Bool) (x0 x1 x2 x3 : α)
    (h01 : ¬(p x0 = true ∧ p x1 = true)) (h02 : ¬(p x0 = true ∧ p x2 = true))
    (h03 : ¬(p x0 = true ∧ p x3 = true)) (h12 : ¬(p x1 = true ∧ p x2 = true))
    (h13 : ¬(p x1 = true ∧ p x3 = true)) (h23 : ¬(p x2 = true ∧ p x3 = true)) :
    (List.filter p [x0, x1, x2, x3]).length ≤ 1 := by
  by_cases c0 : p x0 = true <;> by_cases c1 : p x1 = true <;>
    by_cases c2 : p x2 = true <;> by_cases c3 : p x3 = true <;>
    simp_all [List.filter_cons]

/-- C4: for every event-date parser, every event list, every `today` and
every event, the event is a member of at most one of the four bucket
sequences: classification is priority-ordered, first match wins. -/
theorem bucket_mutually_exclusive (parse : Event → Option Datetime)
    (events : List Event) (today : Datetime) (ev : Event) :
    ((_bucket_events_with parse events today).filter
        (fun kv => decide (ev ∈ kv.2))).length ≤ 1 := by
  have key : ∀ i, i < 4 →
      ev ∈ sortBucket parse (bucketSel i (bucketLoop parse today events)) →
      classify parse today ev = some i := fun i hi hm =>
    (mem_bucketLoop_forward i hi events (mem_sortBucket.mp hm)).2
  simp only [_bucket_events_with]
  apply length_filter_four
  · rintro ⟨ha, hb⟩
    simp only [decide_eq_true_eq] at ha hb
    have h1 := key 0 (by omega) ha
    have h2 := key 1 (by omega) hb
    simp [h1] at h2
  · rintro ⟨ha, hb⟩
    simp only [decide_eq_true_eq] at ha hb
    have h1 := key 0 (by omega) ha
    have h2 := key 2 (by omega) hb
    simp [h1] at h2
  · rintro ⟨ha, hb⟩
    simp only [decide_eq_true_eq] at ha hb
    have h1 := key 0 (by omega) ha
    have h2 := key 3 (by omega) hb
    simp [h1] at h2
  · rintro ⟨ha, hb⟩
    simp only [decide_eq_true_eq] at ha hb
    have h1 := key 1 (by omega) ha
    have h2 := key 2 (by omega) hb
    simp [h1] at h2
  · rintro ⟨ha, hb⟩
    simp only [decide_eq_true_eq] at ha hb
    have h1 := key 1 (by omega) ha
    have h2 := key 3 (by omega) hb
    simp [h1] at h2
  · rintro ⟨ha, hb⟩
    simp only [decide_eq_true_eq] at ha hb
    have h1 := key 2 (by omega) ha
    have h2 := key 3 (by omega) hb
    simp [h1] at h2

/-- C5: for every card whose normalized span has a non-null side `v`
(`v = span.start or span.end`) and overlaps the window `[a, b]`, and which
survives the hidden/url/region filters, the emitted event stores the
representative date `max(v, a)`, reset to `a` whenever that maximum exceeds
`b`, rendered as a calendar date. -/
theorem representative_date_spec (it : Item) (a b : Datetime) (lo : Bool)
    (lt0 : String) (v : Datetime)
    (hhid : it.hidden = false) (hurl : strTruthy it.url = true)
    (hloc : lo = true → pyStrip (pyOrStr it.region "") = lt0)
    (hv : optOr (cardSpan it a.y).1 (cardSpan it a.y).2 = some v)
    (hov : overlaps_range (cardSpan it a.y).1 (cardSpan it a.y).2 a b = true) :
    collect_events_from_soup [it] a b lo lt0 =
      [{ title := pyOrStr it.title "(untitled)", url := it.url.getD "",
         start_date := some (fmtDate (if dtLt b (dtMax v a) then a else dtMax v a)),
         venue := it.venue, city := it.city, region := it.region, image := it.image }] := by
  have hlocCond : (lo && !(pyStrip (pyOrStr it.region "") = lt0 : Bool)) = false := by
    cases lo
    · rfl
    · simp [hloc rfl]
  simp only [collect_events_from_soup, hhid, hurl, hlocCond, hov, startIsoOut, hv,
    Bool.not_true, if_false, Bool.false_eq_true]

/-- Witness: the spec scenario — a card whose pill spans
2025-10-14 .. 2025-10-20 against the window [2025-10-16, 2025-10-18]
overlaps and is stored with representative date 2025-10-16. -/
theorem representative_date_spec_witness :
    collect_events_from_soup
      [⟨false, some "https://e", none, none, some "Gig", none, none, some "Αττική",
        some "14/10/2025 - 20/10/2025"⟩]
      ⟨2025, 10, 16⟩ ⟨2025, 10, 18⟩ false "Αττική" =
    [⟨"Gig", "https://e", some "2025-10-16", none, none, some "Αττική", none⟩] := by
  have h := representative_date_spec
    ⟨false, some "https://e", none, none, some "Gig", none, none, some "Αττική",
      some "14/10/2025 - 20/10/2025"⟩
    ⟨2025, 10, 16⟩ ⟨2025, 10, 18⟩ false "Αττική" ⟨2025, 10, 14⟩
    rfl (by decide) (fun hcontra => nomatch hcontra) (by decide) (by decide)
  exact h.trans (by decide)

/-- C6 counterexample: a textually reversed range parses to a span with
`end < start`, and a range whose first piece is unparsable parses to a
one-sided span `(null, end)` — so neither `end >= start` nor
both-null-or-both-non-null holds for `parse_greek_date_or_range`. -/
theorem greek_range_span_cex :
    parse_greek_date_or_range "20/10/2025 - 16/10/2025" 2025 =
      (some ⟨2025, 10, 20⟩, some ⟨2025, 10, 16⟩) ∧
    dtLt ⟨2025, 10, 16⟩ ⟨2025, 10, 20⟩ = true ∧
    parse_greek_date_or_range "abc - 16/10/2025" 2025 = (none, some ⟨2025, 10, 16⟩) :=
  ⟨rfl, by decide, rfl⟩

/-- C6 (amended): the span returned by `parse_greek_date_or_range` has a
null end side only when both sides are null; a single-piece text yields
`start == end`; and when the text splits into two or more pieces whose last
piece fails to parse, `end == start`.  No `end >= start` ordering holds, and
a parsable last piece with an unparsable first piece yields `(null, end)`. -/
theorem greek_range_span_amended (txt : String) (fy : Nat) :
    ((parse_greek_date_or_range txt fy).2 = none →
      (parse_greek_date_or_range txt fy).1 = none) ∧
    (∀ p, splitParts txt = [p] →
      (parse_greek_date_or_range txt fy).1 = (parse_greek_date_or_range txt fy).2) ∧
    (∀ p q l, splitParts txt = p :: q :: l →
      parse_greek_date_piece ((q :: l).getLastD p) fy = none →
      (parse_greek_date_or_range txt fy).2 = (parse_greek_date_or_range txt fy).1) := by
  by_cases h0 : txt = ""
  · subst h0
    exact ⟨fun _ => rfl, fun _ _ => rfl, fun _ _ _ _ _ => rfl⟩
  · rcases hsp : splitParts txt with _ | ⟨p, _ | ⟨q, l⟩⟩
    · have hval : parse_greek_date_or_range txt fy = (none, none) := by
        unfold parse_greek_date_or_range
        rw [if_neg h0, hsp]
      refine ⟨fun _ => by rw [hval], ?_, ?_⟩
      · intro p' hp'
        simp at hp'
      · intro p' q' l' hp' _
        simp at hp'
    · have hval : parse_greek_date_or_range txt fy =
          (parse_greek_date_piece p fy, parse_greek_date_piece p fy) := by
        unfold parse_greek_date_or_range
        rw [if_neg h0, hsp]
      refine ⟨?_, fun _ _ => by rw [hval], ?_⟩
      · rw [hval]
        exact fun h => h
      · intro p' q' l' hp' _
        simp at hp'
    · have hval : parse_greek_date_or_range txt fy =
          (parse_greek_date_piece p fy,
           optOr (parse_greek_date_piece ((q :: l).getLastD p) fy)
             (parse_greek_date_piece p fy)) := by
        unfold parse_greek_date_or_range
        rw [if_neg h0, hsp]
      refine ⟨?_, ?_, ?_⟩
      · rw [hval]
        rcases hE : parse_greek_date_piece ((q :: l).getLastD p) fy with _ | w
        · exact fun h => h
        · intro hcontra
          simp [optOr] at hcontra
      · intro p' hp'
        simp at hp'
      · intro p' q' l' hp' hpe
        cases hp'
        rw [hval, hpe]
        rfl

/-- Witness: a range whose end piece is unparsable collapses to a
single-day span, so both sides are equal there. -/
theorem greek_range_span_amended_witness :
    (parse_greek_date_or_range "16/10/2025 - xyz" 2025).2 =
      (parse_greek_date_or_range "16/10/2025 - xyz" 2025).1 :=
  (greek_range_span_amended "16/10/2025 - xyz" 2025).2.2 "16/10/2025" "xyz" []
    (by decide) (by decide)

/-- C8 counterexample: a card with a supplied-but-unparsable ISO string is
sensitive to its pill text — with a parsable pill it is emitted, with no
pill it is dropped — so the pill is consulted even though an ISO string was
supplied. -/
theorem iso_pill_independence_cex :
    collect_events_from_soup
      [⟨false, some "https://e", none, some "soon", some "Gig", none, none, none,
        some "16/10/2025"⟩] ⟨2025, 10, 16⟩ ⟨2025, 10, 18⟩ false "x" ≠
    collect_events_from_soup
      [⟨false, some "https://e", none, some "soon", some "Gig", none, none, none, none⟩]
      ⟨2025, 10, 16⟩ ⟨2025, 10, 18⟩ false "x" := by
  decide

/-- C8 (amended): the pill text is consulted exactly when no ISO date
string was supplied or the supplied one fails to parse; whenever the
supplied ISO string parses, the result of `collect_events_from_soup` is
independent of the pill text. -/
theorem pill_unused_when_iso_parses (it : Item) (p1 p2 : Option String)
    (a b : Datetime) (lo : Bool) (lt0 : String)
    (hiso : strTruthy it.start_iso = true)
    (hparse : parse_iso_date (it.start_iso.getD "") ≠ none) :
    collect_events_from_soup [{ it with pill := p1 }] a b lo lt0 =
      collect_events_from_soup [{ it with pill := p2 }] a b lo lt0 := by
  obtain ⟨d, hd⟩ := Option.ne_none_iff_exists.mp hparse
  obtain ⟨hid, url, img, iso, ttl, ven, cty, reg, pil⟩ := it
  have hcs : ∀ p : Option String,
      cardSpan ⟨hid, url, img, iso, ttl, ven, cty, reg, p⟩ a.y = (some d, some d) := by
    intro p
    unfold cardSpan
    simp only at hiso
    rw [if_pos hiso, ← hd]
  simp only [collect_events_from_soup, hcs]

/-- Witness: with a parsable ISO date, changing the pill from a conflicting
date to nothing leaves the collected output unchanged. -/
theorem pill_unused_when_iso_parses_witness :
    collect_events_from_soup
      [⟨false, some "https://e", none, some "2025-10-16", some "Gig", none, none, none,
        some "05/05/2024"⟩] ⟨2025, 10, 16⟩ ⟨2025, 10, 18⟩ false "x" =
    collect_events_from_soup
      [⟨false, some "https://e", none, some "2025-10-16", some "Gig", none, none, none,
        none⟩] ⟨2025, 10, 16⟩ ⟨2025, 10, 18⟩ false "x" :=
  pill_unused_when_iso_parses
    ⟨false, some "https://e", none, some "2025-10-16", some "Gig", none, none, none, none⟩
    (some "05/05/2024") none ⟨2025, 10, 16⟩ ⟨2025, 10, 18⟩ false "x"
    (by decide) (by decide)

end NeverMiss
